import Mathlib

/-!
Shallow embedding of the custom HTTP probe in
`internal/app/master/inspectors/container/probes/http/custom_probe.go`.

The embedding covers:
* the port resolver inside `NewCustomProbe` (lines 57-96),
* the probe runner `Start` (lines 102-245): protocol expansion, the
  per-combination retry loop with classified backoff, request construction
  with header parsing and basic auth, the run counters, and the completion
  signal (`close(doneChan)`).

Effects are made explicit: the outcome of each `httpClient.Do` call is
supplied by an oracle `Nat -> CallResult` (indexed by the retry-loop
variable `i`), sleeps are recorded as a list of second counts, and the
one-shot completion channel becomes a `doneSignaled` boolean.  A `panic`
caused by dereferencing a nil request (the unchecked `http.NewRequest`
error) is modelled by the `Except.error` branch of the runner, which
aborts the run without signalling completion, exactly as an unrecovered
panic in the goroutine would prevent `close(p.doneChan)` from running.
-/

namespace SlimProbe

/-- A probe command, embedding `config.HTTPProbeCmd` as used by
`custom_probe.go` (fields `Method`, `Resource`, `Protocol`, `Headers`,
`Username`, `Password`). -/
structure HTTPProbeCmd where
  Method : String
  Resource : String
  Protocol : String
  Headers : List String
  Username : String
  Password : String
deriving Repr, DecidableEq

/-- The probe state relevant to the runner, embedding the `CustomProbe`
struct (lines 24-34).  `hostIP` stands for
`ContainerInspector.DockerHostIP`; the print fields are omitted because
they only control logging.  `Ports` is the resolved port list computed by
`NewCustomProbe`. -/
structure CustomProbe where
  Ports : List String
  Cmds : List HTTPProbeCmd
  RetryCount : Int
  RetryWait : Int
  TargetPorts : List Nat
  hostIP : String
deriving Repr, DecidableEq

/-! ## Port resolver (`NewCustomProbe`, lines 57-96)

The available ports are the host ports of the container's network
settings minus the two administrative ports (lines 57-65); they form a
Go map, which we embed as a list enumerating the set in the map's
iteration order. -/

/-- The loop at lines 81-91: walk the exposed ports in reverse declaration
order, appending every one of them to the probe's port list and deleting
it from the available-port set.  Returns the appended ports together with
the remaining available ports. -/
def exposedLoop : List String → List String → (List String × List String)
  | [], avail => ([], avail)
  | p :: rest, avail =>
    let availNext := avail.filter (fun q => q != p)
    let (ports, availRem) := exposedLoop rest availNext
    (p :: ports, availRem)

/-- Port resolution of `NewCustomProbe` (lines 69-96): with a non-empty
target-port list, keep exactly the targets present in the available set,
in caller order (lines 69-78); otherwise append every exposed port in
reverse declaration order and then the remaining available ports
(lines 79-96). -/
def resolvePorts (avail : List String) (targetPorts : List Nat)
    (exposed : List String) : List String :=
  if targetPorts.length > 0 then
    (targetPorts.map (fun pnum => toString pnum)).filter
      (fun pstr => avail.contains pstr)
  else
    let (eports, availRem) := exposedLoop exposed.reverse avail
    eports ++ availRem

/-! ## Request construction (`Start`, lines 153-168)

`http.NewRequest` and the header/auth helpers live in the Go standard
library, so they are modelled from their documented behaviour; the pieces
of `Start` that use them are embedded from the source. -/

/-- Whitespace characters trimmed by `strings.TrimSpace` (modelled for the
ASCII range: space, tab, newline, vertical tab, form feed, carriage
return). -/
def isSpaceChar (c : Char) : Bool :=
  c = ' ' || c = '\t' || c = '\n' || c = '\x0b' || c = '\x0c' || c = '\r'

/-- `strings.TrimSpace`: drop leading and trailing whitespace. -/
def trimChars (l : List Char) : List Char :=
  ((l.dropWhile isSpaceChar).reverse.dropWhile isSpaceChar).reverse

/-- String form of `trimChars`. -/
def trimString (s : String) : String :=
  String.mk (trimChars s.data)

/-- Split a character list at the first colon, returning the parts before
and after it, or `none` when there is no colon. -/
def splitFirstColon : List Char → Option (List Char × List Char)
  | [] => none
  | c :: rest =>
    if c = ':' then some ([], rest)
    else
      match splitFirstColon rest with
      | none => none
      | some (l, r) => some (c :: l, r)

/-- `strings.SplitN(hline, ":", 2)` (line 155): a list of one element when
the line has no colon, and of the two parts around the first colon
otherwise. -/
def splitHeaderLine (hline : String) : List String :=
  match splitFirstColon hline.data with
  | none => [hline]
  | some (l, r) => [String.mk l, String.mk r]

/-- The header loop at lines 154-164: each line splitting into exactly two
parts contributes a trimmed (name, value) pair; any other line is skipped
(logged at line 157) and processing continues. -/
def requestHeaders : List String → List (String × String)
  | [] => []
  | hline :: rest =>
    match splitHeaderLine hline with
    | [h1, h2] => (trimString h1, trimString h2) :: requestHeaders rest
    | _ => requestHeaders rest

/-- The special characters allowed in an HTTP method token besides
letters and digits (modelled from Go `net/http`'s `validMethod`, RFC 7230
`tchar`). -/
def tokenSpecials : String := "!#$%&'*+-.^_\x60|~"

/-- A token character: a letter, a digit, or one of `tokenSpecials`. -/
def isTokenChar (c : Char) : Bool :=
  c.isAlphanum || tokenSpecials.data.contains c

/-- Modelled from Go `net/http`'s `validMethod`: non-empty and made of
token characters only. -/
def validMethod (m : String) : Bool :=
  m != "" && m.data.all isTokenChar

/-- Modelled from Go `net/http.NewRequest`: an empty method defaults to
`GET`. -/
def effectiveMethod (m : String) : String :=
  if m = "" then "GET" else m

/-- An outbound HTTP request as far as the probe populates one: method,
target URL, added headers, optional basic-auth credentials. -/
structure Request where
  method : String
  url : String
  headers : List (String × String)
  basicAuth : Option (String × String)
deriving Repr, DecidableEq

/-- Modelled from Go `net/http.NewRequest` (line 153): fails (returns a
nil request together with an error) when the method is invalid.  The
other half of `NewRequest`'s failure set — URL-parse errors — depends
only on the combination's loop-invariant address, and is modelled by
`validProbeTarget` at the combination level (see `protoLoop`). -/
def newRequest (method addr : String) : Option Request :=
  let m := effectiveMethod method
  if validMethod m then
    some { method := m, url := addr, headers := [], basicAuth := none }
  else none

/-- Lines 166-168: basic auth is applied when either credential is
non-empty. -/
def basicAuthOf (cmd : HTTPProbeCmd) : Option (String × String) :=
  if cmd.Username ≠ "" ∨ cmd.Password ≠ "" then
    some (cmd.Username, cmd.Password)
  else none

/-- Request construction for one attempt (lines 153-168): build the
request, add the parsed headers, apply basic auth.  `none` means
`http.NewRequest` failed and `req` is nil. -/
def buildRequest (cmd : HTTPProbeCmd) (addr : String) : Option Request :=
  match newRequest cmd.Method addr with
  | none => none
  | some req =>
    some { req with headers := requestHeaders cmd.Headers,
                    basicAuth := basicAuthOf cmd }

/-- Classification of a failed `httpClient.Do` call (lines 206-218):
a `*url.Error` whose cause is `io.EOF`, any other `*url.Error`, or a
non-URL error. -/
inductive ErrKind where
  | notReady
  | web
  | other
deriving Repr, DecidableEq

/-- Outcome of one `httpClient.Do` call: a response with a status code
and no error, or an error of some classification. -/
inductive CallResult where
  | ok (statusCode : Nat)
  | err (kind : ErrKind)
deriving Repr, DecidableEq

/-- Whether a call outcome is a success (`err == nil` at line 200). -/
def CallResult.isOk : CallResult → Bool
  | .ok _ => true
  | .err _ => false

/-- The result of one attempt: lines 153-170 never check the error of
`http.NewRequest`, so when construction fails the nil request is
dereferenced (`req.Header.Add` at line 163 or `httpClient.Do(req)` at
line 170) and the goroutine panics; otherwise the request is sent and the
call outcome observed. -/
inductive AttemptResult where
  | fault
  | sent (req : Request) (outcome : CallResult)
deriving Repr, DecidableEq

/-- One attempt of the retry loop body (lines 153-170), with the outcome
of `httpClient.Do` supplied by `outcome`. -/
def doAttempt (cmd : HTTPProbeCmd) (addr : String) (outcome : CallResult) :
    AttemptResult :=
  match buildRequest cmd addr with
  | none => .fault
  | some req => .sent req outcome

/-! ## Retry bounds and backoff (lines 138-150, 206-218) -/

/-- `probeRetryCount` (line 20). -/
def probeRetryCount : Int := 5

/-- Lines 138-141: the configured retry count when positive, the default
otherwise. -/
def maxRetryCount (retryCount : Int) : Int :=
  if retryCount > 0 then retryCount else probeRetryCount

/-- Lines 143-150: backoff (seconds) after a not-ready failure. -/
def notReadyErrorWait (retryWait : Int) : Int :=
  if retryWait > 0 then retryWait * 2 else 16

/-- Lines 143-150: backoff (seconds) after a web failure. -/
def webErrorWait (retryWait : Int) : Int :=
  if retryWait > 0 then retryWait else 8

/-- Lines 143-150: backoff (seconds) after an other failure. -/
def otherErrorWait (retryWait : Int) : Int :=
  if retryWait > 0 then retryWait / 2 else 4

/-- Lines 206-218: the sleep taken after a failed attempt, chosen by the
error's classification alone. -/
def sleepAfterFailure (retryWait : Int) : ErrKind → Int
  | .notReady => notReadyErrorWait retryWait
  | .web => webErrorWait retryWait
  | .other => otherErrorWait retryWait

/-- Lines 128-133: protocol expansion for one command. -/
def protocolsFor (cmd : HTTPProbeCmd) : List String :=
  if cmd.Protocol = "" then ["http", "https"] else [cmd.Protocol]

/-- Line 136: the target address of a combination. -/
def probeAddr (proto hostIP port resource : String) : String :=
  proto ++ "://" ++ hostIP ++ ":" ++ port ++ resource

/-- Go `net/url`'s scheme grammar: a letter followed by letters, digits,
`+`, `-` or `.`. -/
def validSchemeChars : List Char → Bool
  | [] => false
  | c :: rest =>
    c.isAlpha && rest.all (fun d => d.isAlphanum || d == '+' || d == '-' || d == '.')

/-- String form of `validSchemeChars`. -/
def validScheme (s : String) : Bool := validSchemeChars s.data

/-- A host character the model accepts: letter, digit, dot, hyphen or
underscore (covers IPv4 and DNS names; a conservative subset of what Go
allows in a registered name). -/
def isHostChar (c : Char) : Bool :=
  c.isAlphanum || c == '.' || c == '-' || c == '_'

/-- A non-empty host of `isHostChar` characters. -/
def validHostChars (s : String) : Bool :=
  s != "" && s.data.all isHostChar

/-- A path character the model accepts: letter, digit, `/`, `-`, `.`,
`_` or `~` (unreserved characters; no percent escapes, query or
fragment). -/
def isPathChar (c : Char) : Bool :=
  c.isAlphanum || c == '/' || c == '-' || c == '.' || c == '_' || c == '~'

/-- An empty resource, or an absolute path of `isPathChar` characters. -/
def validResourcePath (s : String) : Bool :=
  match s.data with
  | [] => true
  | c :: _ => c == '/' && s.data.all isPathChar

/-- Modelled from Go `net/url.Parse` — the URL half of
`http.NewRequest`'s failure set (the method half is `validMethod`).
This is a *conservative sufficient condition* for `url.Parse` to succeed
on the assembled address `proto ++ "://" ++ hostIP ++ ":" ++ port ++
resource`: a grammatical scheme, a non-empty host over a safe character
set, a digits-only port and an unreserved absolute (or empty) path
together guarantee a successful parse.  Addresses outside this set are
treated as construction failures; that over-approximates Go's failure
set (Go also accepts queries, fragments, percent escapes, IPv6 hosts,
...), which is the sound direction for a completion guarantee: every
address this accepts is one the program parses.  It also exhibits the
documented failure modes: a malformed scheme such as `"1http"` (whose
colon lands in the first path segment, a parse error), control
characters anywhere (all excluded from the character sets), and a
non-numeric port. -/
def validProbeTarget (proto hostIP port resource : String) : Bool :=
  validScheme proto && validHostChars hostIP &&
  port.data.all (fun c => c.isDigit) && validResourcePath resource

/-! ## The runner (`Start`, lines 102-245) -/

/-- The three run counters (lines 122-124). -/
structure Counters where
  callCount : Nat
  errCount : Nat
  okCount : Nat
deriving Repr, DecidableEq

/-- All counters start at zero. -/
def Counters.zero : Counters := ⟨0, 0, 0⟩

/-- Observable trace of the run: the current counters, the counter values
observed after each completed attempt (in order), and the sleeps taken
(in seconds, in order). -/
structure Trace where
  counters : Counters
  history : List Counters
  sleeps : List Int
deriving Repr, DecidableEq

/-- The empty trace at the start of the run. -/
def Trace.empty : Trace := ⟨Counters.zero, [], []⟩

/-- The retry loop for one (port, command, protocol) combination
(lines 152-221).  `oracle i` is the outcome `httpClient.Do` would return
on loop iteration `i`; `fuel` is the remaining iteration budget
(`maxRetryCount - i`).  Every attempt increments `callCount` (line 171);
a success increments `okCount` and breaks (lines 200-202); a failure
increments `errCount` and sleeps the classified backoff (lines 203-219).
An `Except.error` result is the nil-request panic: the run dies with the
trace it had accumulated. -/
def comboAttempts (retryWait : Int) (cmd : HTTPProbeCmd) (addr : String)
    (oracle : Nat → CallResult) : Nat → Nat → Trace → Except Trace Trace
  | 0, _, t => .ok t
  | fuel + 1, i, t =>
    match doAttempt cmd addr (oracle i) with
    | .fault => .error t
    | .sent _ outcome =>
      let c1 : Counters := { t.counters with callCount := t.counters.callCount + 1 }
      match outcome with
      | .ok _ =>
        let c2 : Counters := { c1 with okCount := c1.okCount + 1 }
        .ok { counters := c2, history := t.history ++ [c2], sleeps := t.sleeps }
      | .err k =>
        let c2 : Counters := { c1 with errCount := c1.errCount + 1 }
        comboAttempts retryWait cmd addr oracle fuel (i + 1)
          { counters := c2, history := t.history ++ [c2],
            sleeps := t.sleeps ++ [sleepAfterFailure retryWait k] }

/-- The classifications of the failed attempts the retry loop actually
performs, in order: empty once a success is hit, one entry per failure
otherwise. -/
def failureKinds (oracle : Nat → CallResult) : Nat → Nat → List ErrKind
  | 0, _ => []
  | fuel + 1, i =>
    match oracle i with
    | .ok _ => []
    | .err k => k :: failureKinds oracle fuel (i + 1)

/-- The protocol loop (lines 135-222) for one port and one command.
`http.NewRequest` at line 153 sits inside the retry loop, but its URL
argument is loop-invariant, so a URL-parse failure makes the very first
iteration dereference a nil request and panic, before any counter or
sleep update; the model therefore checks `validProbeTarget` once per
combination, before entering the retry loop, with identical observable
behaviour (abort with the trace unchanged).  The method half of the
construction failure is checked per attempt inside `comboAttempts`
(via `doAttempt`), matching the code's position. -/
def protoLoop (retryCount retryWait : Int) (hostIP : String)
    (cmd : HTTPProbeCmd) (oracle : String → Nat → CallResult)
    (port : String) : List String → Trace → Except Trace Trace
  | [], t => .ok t
  | proto :: rest, t =>
    if validProbeTarget proto hostIP port cmd.Resource then
      match comboAttempts retryWait cmd (probeAddr proto hostIP port cmd.Resource)
          (oracle proto) (maxRetryCount retryCount).toNat 0 t with
      | .error t1 => .error t1
      | .ok t1 => protoLoop retryCount retryWait hostIP cmd oracle port rest t1
    else .error t

/-- The command loop (lines 127-223) for one port; `oracle` is indexed by
the command's position. -/
def cmdLoop (retryCount retryWait : Int) (hostIP port : String)
    (oracle : Nat → String → Nat → CallResult) :
    Nat → List HTTPProbeCmd → Trace → Except Trace Trace
  | _, [], t => .ok t
  | idx, cmd :: rest, t =>
    match protoLoop retryCount retryWait hostIP cmd (oracle idx) port
        (protocolsFor cmd) t with
    | .error t1 => .error t1
    | .ok t1 => cmdLoop retryCount retryWait hostIP port oracle (idx + 1) rest t1

/-- The port loop (lines 126-224). -/
def portLoop (retryCount retryWait : Int) (hostIP : String)
    (cmds : List HTTPProbeCmd)
    (oracle : String → Nat → String → Nat → CallResult) :
    List String → Trace → Except Trace Trace
  | [], t => .ok t
  | port :: rest, t =>
    match cmdLoop retryCount retryWait hostIP port (oracle port) 0 cmds t with
    | .error t1 => .error t1
    | .ok t1 => portLoop retryCount retryWait hostIP cmds oracle rest t1

/-- Everything the background run leaves behind: its trace, and whether
`close(p.doneChan)` (line 243) executed. -/
structure RunOutcome where
  trace : Trace
  doneSignaled : Bool
deriving Repr, DecidableEq

/-- The whole background run of `Start` (lines 102-245): the triple loop
over ports, commands and protocols, then the completion signal.  The
`Except.error` branch is the unrecovered nil-request panic, which kills
the goroutine before `close(p.doneChan)` runs. -/
def startRun (p : CustomProbe)
    (oracle : String → Nat → String → Nat → CallResult) : RunOutcome :=
  match portLoop p.RetryCount p.RetryWait p.hostIP p.Cmds oracle p.Ports
      Trace.empty with
  | .ok t => { trace := t, doneSignaled := true }
  | .error t => { trace := t, doneSignaled := false }

/-! ## Observation helpers and concrete instances -/

/-- One counter step: the attempt incremented `callCount` once and then
exactly one of `okCount` and `errCount` once. -/
def countersStep (c c2 : Counters) : Prop :=
  c2.callCount = c.callCount + 1 ∧
  ((c2.okCount = c.okCount + 1 ∧ c2.errCount = c.errCount) ∨
   (c2.errCount = c.errCount + 1 ∧ c2.okCount = c.okCount))

/-- Every consecutive pair of counter observations, starting from `c`, is
a `countersStep`. -/
def stepChain : Counters → List Counters → Prop
  | _, [] => True
  | c, c2 :: rest => countersStep c c2 ∧ stepChain c2 rest

/-- The last observation in a history, or the default when empty. -/
def lastCounters : List Counters → Counters → Counters
  | [], d => d
  | c :: rest, _ => lastCounters rest c

/-- A well-formed trace: the history is a chain of single-attempt steps
from the zero counters, and the current counters are the last
observation. -/
def traceInv (t : Trace) : Prop :=
  stepChain Counters.zero t.history ∧
  t.counters = lastCounters t.history Counters.zero

/-- The trace invariant for either outcome of a loop: normal completion
or the nil-request panic. -/
def exceptTraceInv : Except Trace Trace → Prop
  | .ok t => traceInv t
  | .error t => traceInv t

/-- A GET command with empty protocol, a valid header line and a
malformed one, used in concrete runs. -/
def cmdGet : HTTPProbeCmd :=
  { Method := "GET", Resource := "/", Protocol := "",
    Headers := [], Username := "", Password := "" }

/-- A command whose method is not a valid HTTP token (it contains a
space), so `http.NewRequest` fails on it. -/
def cmdBadMethod : HTTPProbeCmd :=
  { Method := "BAD METHOD", Resource := "/", Protocol := "http",
    Headers := [], Username := "", Password := "" }

/-- A full-run oracle failing every call with a web-classified error. -/
def oracleFailAll : String → Nat → String → Nat → CallResult :=
  fun _ _ _ _ => CallResult.err ErrKind.web

/-- A one-combination oracle failing every attempt with a web error. -/
def comboFail : Nat → CallResult := fun _ => CallResult.err ErrKind.web

/-- A one-combination oracle that succeeds on the attempt of index 2
after two not-ready failures. -/
def comboThird : Nat → CallResult :=
  fun i => if i = 2 then CallResult.ok 200 else CallResult.err ErrKind.notReady

/-- A command with a valid method token but a malformed protocol: the
scheme "1http" makes the assembled target URL fail `url.Parse` (its
colon lands in the first path segment), so `http.NewRequest` fails on
the URL even though the method passes the token check. -/
def cmdBadProto : HTTPProbeCmd :=
  { Method := "GET", Resource := "/", Protocol := "1http",
    Headers := [], Username := "", Password := "" }

/-- A probe whose single command has the malformed protocol. -/
def probeBadProto : CustomProbe :=
  { Ports := ["8080"], Cmds := [cmdBadProto], RetryCount := 0,
    RetryWait := 0, TargetPorts := [], hostIP := "h" }

/-- A probe whose single command has the invalid method. -/
def probeBadMethod : CustomProbe :=
  { Ports := ["8080"], Cmds := [cmdBadMethod], RetryCount := 0,
    RetryWait := 0, TargetPorts := [], hostIP := "h" }

/-- The probe of end-to-end scenario 3: one empty-protocol command and
retry count 2. -/
def probeScenario3 : CustomProbe :=
  { Ports := ["8080"], Cmds := [cmdGet], RetryCount := 2, RetryWait := 0,
    TargetPorts := [], hostIP := "h" }

/-! ## Helper lemmas -/

theorem exposedLoop_eq (l avail : List String) :
    exposedLoop l avail =
      (l, avail.filter (fun q => !(l.contains q))) := by
  induction l generalizing avail with
  | nil =>
    simp [exposedLoop]
  | cons p rest ih =>
    simp only [exposedLoop, ih, List.filter_filter]
    congr 1
    refine List.filter_congr ?_
    intro q _
    show (!(List.contains rest q) && (q != p)) = !(List.contains (p :: rest) q)
    simp only [List.contains_cons, Bool.not_or, bne]
    rw [Bool.and_comm]

theorem resolvePorts_no_target (avail exposed : List String) :
    resolvePorts avail [] exposed =
      exposed.reverse ++ avail.filter (fun q => !(exposed.contains q)) := by
  simp only [resolvePorts, List.length_nil, gt_iff_lt, lt_self_iff_false,
    if_false, exposedLoop_eq]
  congr 1
  refine List.filter_congr ?_
  intro q _
  simp

theorem buildRequest_eq_some (cmd : HTTPProbeCmd) (addr : String)
    (h : validMethod (effectiveMethod cmd.Method) = true) :
    buildRequest cmd addr =
      some { method := effectiveMethod cmd.Method, url := addr,
             headers := requestHeaders cmd.Headers,
             basicAuth := basicAuthOf cmd } := by
  simp [buildRequest, newRequest, h]

theorem buildRequest_isSome (cmd : HTTPProbeCmd) (addr : String)
    (h : validMethod (effectiveMethod cmd.Method) = true) :
    ∃ req, buildRequest cmd addr = some req :=
  ⟨_, buildRequest_eq_some cmd addr h⟩

theorem comboAttempts_completes (retryWait : Int) (cmd : HTTPProbeCmd)
    (addr : String) (oracle : Nat → CallResult) (req : Request)
    (hb : buildRequest cmd addr = some req) :
    ∀ fuel i t, ∃ t',
      comboAttempts retryWait cmd addr oracle fuel i t = .ok t' := by
  intro fuel
  induction fuel with
  | zero => exact fun i t => ⟨t, rfl⟩
  | succ n ih =>
    intro i t
    cases ho : oracle i with
    | ok s =>
      simp only [comboAttempts, doAttempt, hb, ho]
      exact ⟨_, rfl⟩
    | err k =>
      simp only [comboAttempts, doAttempt, hb, ho]
      exact ih (i + 1) _

theorem comboAttempts_allFail (retryWait : Int) (cmd : HTTPProbeCmd)
    (addr : String) (oracle : Nat → CallResult) (req : Request)
    (hb : buildRequest cmd addr = some req)
    (hf : ∀ j, ∃ k, oracle j = .err k) :
    ∀ fuel i t, ∃ t',
      comboAttempts retryWait cmd addr oracle fuel i t = .ok t' ∧
      t'.counters.callCount = t.counters.callCount + fuel ∧
      t'.counters.errCount = t.counters.errCount + fuel ∧
      t'.counters.okCount = t.counters.okCount := by
  intro fuel
  induction fuel with
  | zero => exact fun i t => ⟨t, rfl, rfl, rfl, rfl⟩
  | succ n ih =>
    intro i t
    obtain ⟨k, hk⟩ := hf i
    obtain ⟨t', h1, h2, h3, h4⟩ := ih (i + 1)
      (Trace.mk
        (Counters.mk (t.counters.callCount + 1) (t.counters.errCount + 1)
          t.counters.okCount)
        (t.history ++ [Counters.mk (t.counters.callCount + 1)
          (t.counters.errCount + 1) t.counters.okCount])
        (t.sleeps ++ [sleepAfterFailure retryWait k]))
    dsimp only at h2 h3 h4
    refine ⟨t', ?_, by omega, by omega, h4⟩
    simp only [comboAttempts, doAttempt, hb, hk]
    exact h1

theorem comboAttempts_firstSuccess (retryWait : Int) (cmd : HTTPProbeCmd)
    (addr : String) (oracle : Nat → CallResult) (req : Request)
    (hb : buildRequest cmd addr = some req) :
    ∀ j fuel i t, j < fuel → (oracle (i + j)).isOk = true →
      (∀ m, m < j → (oracle (i + m)).isOk = false) →
      ∃ t', comboAttempts retryWait cmd addr oracle fuel i t = .ok t' ∧
        t'.counters.okCount = t.counters.okCount + 1 ∧
        t'.counters.callCount = t.counters.callCount + (j + 1) ∧
        t'.counters.errCount = t.counters.errCount + j := by
  intro j
  induction j with
  | zero =>
    intro fuel i t hlt hok _
    obtain ⟨n, rfl⟩ : ∃ n, fuel = n + 1 := ⟨fuel - 1, by omega⟩
    cases ho : oracle i with
    | ok s =>
      simp only [comboAttempts, doAttempt, hb, ho]
      exact ⟨_, rfl, rfl, rfl, rfl⟩
    | err k =>
      rw [Nat.add_zero, ho] at hok
      simp [CallResult.isOk] at hok
  | succ j ih =>
    intro fuel i t hlt hok hbefore
    obtain ⟨n, rfl⟩ : ∃ n, fuel = n + 1 := ⟨fuel - 1, by omega⟩
    cases ho : oracle i with
    | ok s =>
      have h0 := hbefore 0 (by omega)
      rw [Nat.add_zero, ho] at h0
      simp [CallResult.isOk] at h0
    | err k =>
      have hshift : i + 1 + j = i + (j + 1) := by omega
      obtain ⟨t', h1, h2, h3, h4⟩ := ih n (i + 1)
        (Trace.mk
          (Counters.mk (t.counters.callCount + 1) (t.counters.errCount + 1)
            t.counters.okCount)
          (t.history ++ [Counters.mk (t.counters.callCount + 1)
            (t.counters.errCount + 1) t.counters.okCount])
          (t.sleeps ++ [sleepAfterFailure retryWait k]))
        (by omega) (by rw [hshift]; exact hok)
        (fun m hm => by
          have := hbefore (m + 1) (by omega)
          rw [show i + 1 + m = i + (m + 1) by omega]
          exact this)
      dsimp only at h2 h3 h4
      refine ⟨t', ?_, h2, by omega, by omega⟩
      simp only [comboAttempts, doAttempt, hb, ho]
      exact h1

theorem comboAttempts_sleeps (retryWait : Int) (cmd : HTTPProbeCmd)
    (addr : String) (oracle : Nat → CallResult) (req : Request)
    (hb : buildRequest cmd addr = some req) :
    ∀ fuel i t, ∃ t',
      comboAttempts retryWait cmd addr oracle fuel i t = .ok t' ∧
      t'.sleeps = t.sleeps ++
        (failureKinds oracle fuel i).map (sleepAfterFailure retryWait) := by
  intro fuel
  induction fuel with
  | zero => exact fun i t => ⟨t, rfl, by simp [failureKinds]⟩
  | succ n ih =>
    intro i t
    cases ho : oracle i with
    | ok s =>
      simp only [comboAttempts, doAttempt, hb, ho, failureKinds]
      exact ⟨_, rfl, by simp⟩
    | err k =>
      obtain ⟨t', h1, h2⟩ := ih (i + 1)
        (Trace.mk
          (Counters.mk (t.counters.callCount + 1) (t.counters.errCount + 1)
            t.counters.okCount)
          (t.history ++ [Counters.mk (t.counters.callCount + 1)
            (t.counters.errCount + 1) t.counters.okCount])
          (t.sleeps ++ [sleepAfterFailure retryWait k]))
      refine ⟨t', ?_, ?_⟩
      · simp only [comboAttempts, doAttempt, hb, ho]
        exact h1
      · dsimp only at h2
        rw [h2]
        simp [failureKinds, ho]

theorem lastCounters_append (l : List Counters) (b d : Counters) :
    lastCounters (l ++ [b]) d = b := by
  induction l generalizing d with
  | nil => rfl
  | cons c rest ih => simpa [lastCounters] using ih c

theorem stepChain_append (l : List Counters) (d b : Counters) :
    stepChain d (l ++ [b]) ↔
      stepChain d l ∧ countersStep (lastCounters l d) b := by
  induction l generalizing d with
  | nil => simp [stepChain, lastCounters]
  | cons c rest ih =>
    simp only [List.cons_append, stepChain, lastCounters, List.append_eq]
    rw [ih c]
    tauto

theorem comboAttempts_traceInv (retryWait : Int) (cmd : HTTPProbeCmd)
    (addr : String) (oracle : Nat → CallResult) :
    ∀ fuel i t, traceInv t →
      exceptTraceInv (comboAttempts retryWait cmd addr oracle fuel i t) := by
  intro fuel
  induction fuel with
  | zero => exact fun i t h => h
  | succ n ih =>
    intro i t h
    cases hba : buildRequest cmd addr with
    | none =>
      simp only [comboAttempts, doAttempt, hba]
      exact h
    | some req =>
      cases ho : oracle i with
      | ok s =>
        simp only [comboAttempts, doAttempt, hba, ho, exceptTraceInv]
        refine ⟨?_, (lastCounters_append _ _ _).symm⟩
        rw [stepChain_append]
        refine ⟨h.1, ?_⟩
        rw [← h.2]
        exact ⟨rfl, Or.inl ⟨rfl, rfl⟩⟩
      | err k =>
        simp only [comboAttempts, doAttempt, hba, ho]
        refine ih (i + 1) _ ⟨?_, (lastCounters_append _ _ _).symm⟩
        rw [stepChain_append]
        refine ⟨h.1, ?_⟩
        rw [← h.2]
        exact ⟨rfl, Or.inr ⟨rfl, rfl⟩⟩

theorem protoLoop_traceInv (retryCount retryWait : Int) (hostIP : String)
    (cmd : HTTPProbeCmd) (oracle : String → Nat → CallResult)
    (port : String) :
    ∀ protos t, traceInv t →
      exceptTraceInv (protoLoop retryCount retryWait hostIP cmd oracle port
        protos t) := by
  intro protos
  induction protos with
  | nil => exact fun t h => h
  | cons proto rest ih =>
    intro t h
    simp only [protoLoop]
    by_cases hv : validProbeTarget proto hostIP port cmd.Resource = true
    · rw [if_pos hv]
      have hc := comboAttempts_traceInv retryWait cmd
        (probeAddr proto hostIP port cmd.Resource) (oracle proto)
        (maxRetryCount retryCount).toNat 0 t h
      cases hcc : comboAttempts retryWait cmd
          (probeAddr proto hostIP port cmd.Resource) (oracle proto)
          (maxRetryCount retryCount).toNat 0 t with
      | error t1 => rw [hcc] at hc; exact hc
      | ok t1 => rw [hcc] at hc; exact ih t1 hc
    · rw [if_neg hv]
      exact h

theorem cmdLoop_traceInv (retryCount retryWait : Int) (hostIP port : String)
    (oracle : Nat → String → Nat → CallResult) :
    ∀ idx cmds t, traceInv t →
      exceptTraceInv (cmdLoop retryCount retryWait hostIP port oracle idx
        cmds t) := by
  intro idx cmds
  induction cmds generalizing idx with
  | nil => exact fun t h => h
  | cons cmd rest ih =>
    intro t h
    simp only [cmdLoop]
    have hp := protoLoop_traceInv retryCount retryWait hostIP cmd
      (oracle idx) port (protocolsFor cmd) t h
    cases hpp : protoLoop retryCount retryWait hostIP cmd (oracle idx) port
        (protocolsFor cmd) t with
    | error t1 => rw [hpp] at hp; exact hp
    | ok t1 => rw [hpp] at hp; exact ih (idx + 1) t1 hp

theorem portLoop_traceInv (retryCount retryWait : Int) (hostIP : String)
    (cmds : List HTTPProbeCmd)
    (oracle : String → Nat → String → Nat → CallResult) :
    ∀ ports t, traceInv t →
      exceptTraceInv (portLoop retryCount retryWait hostIP cmds oracle
        ports t) := by
  intro ports
  induction ports with
  | nil => exact fun t h => h
  | cons port rest ih =>
    intro t h
    simp only [portLoop]
    have hc := cmdLoop_traceInv retryCount retryWait hostIP port
      (oracle port) 0 cmds t h
    cases hcc : cmdLoop retryCount retryWait hostIP port (oracle port) 0
        cmds t with
    | error t1 => rw [hcc] at hc; exact hc
    | ok t1 => rw [hcc] at hc; exact ih t1 hc

theorem startRun_traceInv (p : CustomProbe)
    (oracle : String → Nat → String → Nat → CallResult) :
    traceInv (startRun p oracle).trace := by
  have h := portLoop_traceInv p.RetryCount p.RetryWait p.hostIP p.Cmds
    oracle p.Ports Trace.empty ⟨trivial, rfl⟩
  unfold startRun
  cases hpp : portLoop p.RetryCount p.RetryWait p.hostIP p.Cmds oracle
      p.Ports Trace.empty with
  | error t1 => rw [hpp] at h; exact h
  | ok t1 => rw [hpp] at h; exact h

theorem stepChain_members (l : List Counters) :
    ∀ c, c.callCount = c.okCount + c.errCount → stepChain c l →
      ∀ c2 ∈ l, c2.callCount = c2.okCount + c2.errCount := by
  induction l with
  | nil => intro c _ _ c2 h2; cases h2
  | cons b rest ih =>
    intro c hc hchain c2 h2
    have hb : b.callCount = b.okCount + b.errCount := by
      obtain ⟨h1, hor⟩ := hchain.1
      rcases hor with ⟨ho, he⟩ | ⟨he, ho⟩ <;> omega
    rcases List.mem_cons.mp h2 with rfl | hmem
    · exact hb
    · exact ih b hb hchain.2 c2 hmem

theorem lastCounters_default_or_mem (l : List Counters) :
    ∀ d, lastCounters l d = d ∨ lastCounters l d ∈ l := by
  induction l with
  | nil => exact fun d => Or.inl rfl
  | cons c rest ih =>
    intro d
    rcases ih c with h | h
    · right; rw [lastCounters, h]; exact List.mem_cons_self c rest
    · right; rw [lastCounters]; exact List.mem_cons_of_mem c h

theorem protoLoop_completes (retryCount retryWait : Int) (hostIP : String)
    (cmd : HTTPProbeCmd) (oracle : String → Nat → CallResult) (port : String)
    (hm : validMethod (effectiveMethod cmd.Method) = true) :
    ∀ protos, (∀ proto ∈ protos,
        validProbeTarget proto hostIP port cmd.Resource = true) →
      ∀ t, ∃ t',
        protoLoop retryCount retryWait hostIP cmd oracle port protos t
          = .ok t' := by
  intro protos
  induction protos with
  | nil => exact fun _ t => ⟨t, rfl⟩
  | cons proto rest ih =>
    intro hurl t
    obtain ⟨req, hb⟩ := buildRequest_isSome cmd
      (probeAddr proto hostIP port cmd.Resource) hm
    obtain ⟨t1, h1⟩ := comboAttempts_completes retryWait cmd _ (oracle proto)
      req hb (maxRetryCount retryCount).toNat 0 t
    obtain ⟨t', h'⟩ := ih
      (fun q hq => hurl q (List.mem_cons_of_mem proto hq)) t1
    refine ⟨t', ?_⟩
    simp only [protoLoop]
    rw [if_pos (hurl proto (List.mem_cons_self proto rest)), h1]
    exact h'

theorem cmdLoop_completes (retryCount retryWait : Int) (hostIP port : String)
    (oracle : Nat → String → Nat → CallResult) :
    ∀ cmds, (∀ cmd ∈ cmds, validMethod (effectiveMethod cmd.Method) = true) →
      (∀ cmd ∈ cmds, ∀ proto ∈ protocolsFor cmd,
        validProbeTarget proto hostIP port cmd.Resource = true) →
      ∀ idx t, ∃ t',
        cmdLoop retryCount retryWait hostIP port oracle idx cmds t
          = .ok t' := by
  intro cmds
  induction cmds with
  | nil => exact fun _ _ idx t => ⟨t, rfl⟩
  | cons cmd rest ih =>
    intro hall hurl idx t
    obtain ⟨t1, h1⟩ := protoLoop_completes retryCount retryWait hostIP cmd
      (oracle idx) port (hall cmd (List.mem_cons_self cmd rest))
      (protocolsFor cmd) (hurl cmd (List.mem_cons_self cmd rest)) t
    obtain ⟨t', h'⟩ := ih
      (fun c hc => hall c (List.mem_cons_of_mem cmd hc))
      (fun c hc => hurl c (List.mem_cons_of_mem cmd hc)) (idx + 1) t1
    refine ⟨t', ?_⟩
    simp only [cmdLoop, h1]
    exact h'

theorem portLoop_completes (retryCount retryWait : Int) (hostIP : String)
    (cmds : List HTTPProbeCmd)
    (oracle : String → Nat → String → Nat → CallResult)
    (hall : ∀ cmd ∈ cmds, validMethod (effectiveMethod cmd.Method) = true) :
    ∀ ports, (∀ port ∈ ports, ∀ cmd ∈ cmds, ∀ proto ∈ protocolsFor cmd,
        validProbeTarget proto hostIP port cmd.Resource = true) →
      ∀ t, ∃ t',
        portLoop retryCount retryWait hostIP cmds oracle ports t = .ok t' := by
  intro ports
  induction ports with
  | nil => exact fun _ t => ⟨t, rfl⟩
  | cons port rest ih =>
    intro hurl t
    obtain ⟨t1, h1⟩ := cmdLoop_completes retryCount retryWait hostIP port
      (oracle port) cmds hall (hurl port (List.mem_cons_self port rest)) 0 t
    obtain ⟨t', h'⟩ := ih
      (fun q hq => hurl q (List.mem_cons_of_mem port hq)) t1
    refine ⟨t', ?_⟩
    simp only [portLoop, h1]
    exact h'

theorem startRun_badProto_no_signal :
    validMethod (effectiveMethod cmdBadProto.Method) = true ∧
    validProbeTarget "1http" probeBadProto.hostIP "8080"
      cmdBadProto.Resource = false ∧
    (startRun probeBadProto oracleFailAll).doneSignaled = false := by
  decide

/-! ## Claims -/

/-- Claim C1, counterexample: with available ports {"8080"}, exposed
ports ["8080", "9090"] and no target filter, the resolver does not
produce ["8080"]: an exposed port absent from the available set is not
skipped (lines 82-84 append every exposed port unconditionally). -/
theorem resolve_no_target_cex :
    ¬ resolvePorts ["8080"] [] ["8080", "9090"] = ["8080"] := by decide

/-- Claim C1, amended: with no explicit target filter the resolved
sequence is all exposed ports in reverse declaration order — including
those absent from the available set, which are not skipped — followed by
the available ports that do not appear among the exposed ports; in the
concrete scenario the result is ["9090", "8080"], not ["8080"]. -/
theorem resolve_no_target_order (avail exposed : List String) :
    resolvePorts avail [] exposed =
      exposed.reverse ++ avail.filter (fun q => !(exposed.contains q)) ∧
    resolvePorts ["8080"] [] ["8080", "9090"] = ["9090", "8080"] :=
  ⟨resolvePorts_no_target avail exposed, by decide⟩

/-- Claim C2, confirmed: with a non-empty explicit target-port list the
resolved sequence is exactly the subsequence of that list, rendered as
decimal strings, whose members are in the available set, in caller
order; non-matching ports are silently dropped; target [9090, 8080] with
available {"8080", "9090"} resolves to ["9090", "8080"]. -/
theorem resolve_target_filter (avail : List String) (target : List Nat)
    (exposed : List String) (h : target ≠ []) :
    resolvePorts avail target exposed =
      (target.map (fun pnum => toString pnum)).filter
        (fun pstr => avail.contains pstr) ∧
    resolvePorts ["8080", "9090"] [9090, 8080] [] = ["9090", "8080"] := by
  constructor
  · have hlen : target.length > 0 := List.length_pos.mpr h
    simp only [resolvePorts, hlen, if_pos]
  · decide

/-- Witness for claim C2 at the scenario-2 input. -/
theorem resolve_target_filter_witness :
    resolvePorts ["8080", "9090"] [9090, 8080] [] =
      (([9090, 8080] : List Nat).map (fun pnum => toString pnum)).filter
        (fun pstr => (["8080", "9090"] : List String).contains pstr) :=
  (resolve_target_filter ["8080", "9090"] [9090, 8080] [] (by decide)).1

/-- Claim C3, confirmed: for a combination whose request builds and whose
every attempt fails, the retry loop performs exactly maxRetryCount
attempts — the configured retry count when positive, the default 5
otherwise — incrementing the failure counter once per attempt and the
success counter not at all. -/
theorem retry_exhaustion_counts (retryCount retryWait : Int)
    (cmd : HTTPProbeCmd) (addr : String) (oracle : Nat → CallResult)
    (req : Request) (t : Trace)
    (hb : buildRequest cmd addr = some req)
    (hf : ∀ j, ∃ k, oracle j = .err k) :
    (∃ t', comboAttempts retryWait cmd addr oracle
        (maxRetryCount retryCount).toNat 0 t = .ok t' ∧
      t'.counters.callCount =
        t.counters.callCount + (maxRetryCount retryCount).toNat ∧
      t'.counters.errCount =
        t.counters.errCount + (maxRetryCount retryCount).toNat ∧
      t'.counters.okCount = t.counters.okCount) ∧
    (0 < retryCount → maxRetryCount retryCount = retryCount) ∧
    (retryCount ≤ 0 → maxRetryCount retryCount = 5) := by
  refine ⟨comboAttempts_allFail retryWait cmd addr oracle req hb hf _ 0 t,
    ?_, ?_⟩
  · intro h
    rw [maxRetryCount, if_pos h]
  · intro h
    rw [maxRetryCount, if_neg (by omega), probeRetryCount]

/-- Witness for claim C3: retry count 2, every attempt a web error. -/
theorem retry_exhaustion_counts_witness :
    ∃ t', comboAttempts 0 cmdGet "http://h:8080/" comboFail
        (maxRetryCount 2).toNat 0 Trace.empty = .ok t' ∧
      t'.counters.callCount =
        Trace.empty.counters.callCount + (maxRetryCount 2).toNat ∧
      t'.counters.errCount =
        Trace.empty.counters.errCount + (maxRetryCount 2).toNat ∧
      t'.counters.okCount = Trace.empty.counters.okCount :=
  (retry_exhaustion_counts 2 0 cmdGet "http://h:8080/" comboFail
    ⟨"GET", "http://h:8080/", [], none⟩ Trace.empty (by decide)
    (fun _ => ⟨ErrKind.web, rfl⟩)).1

/-- Claim C4, confirmed: for a combination whose request builds and whose
attempt of index j is the first success, the loop makes exactly j + 1
attempts and then stops — incrementing the success counter exactly once
for the combination and the failure counter once per preceding failed
attempt. -/
theorem first_success_stops_combo (retryWait : Int) (cmd : HTTPProbeCmd)
    (addr : String) (oracle : Nat → CallResult) (req : Request)
    (j fuel : Nat) (t : Trace)
    (hb : buildRequest cmd addr = some req)
    (hj : j < fuel) (hok : (oracle j).isOk = true)
    (hbefore : ∀ m, m < j → (oracle m).isOk = false) :
    ∃ t', comboAttempts retryWait cmd addr oracle fuel 0 t = .ok t' ∧
      t'.counters.okCount = t.counters.okCount + 1 ∧
      t'.counters.callCount = t.counters.callCount + (j + 1) ∧
      t'.counters.errCount = t.counters.errCount + j :=
  comboAttempts_firstSuccess retryWait cmd addr oracle req hb j fuel 0 t
    hj (by simpa using hok) (fun m hm => by simpa using hbefore m hm)

/-- Witness for claim C4: success on the attempt of index 2 with budget
5 gives exactly 3 calls, 1 success, 2 failures. -/
theorem first_success_stops_combo_witness :
    ∃ t', comboAttempts 0 cmdGet "http://h:8080/" comboThird 5 0 Trace.empty
        = .ok t' ∧
      t'.counters.okCount = Trace.empty.counters.okCount + 1 ∧
      t'.counters.callCount = Trace.empty.counters.callCount + (2 + 1) ∧
      t'.counters.errCount = Trace.empty.counters.errCount + 2 :=
  first_success_stops_combo 0 cmdGet "http://h:8080/" comboThird
    ⟨"GET", "http://h:8080/", [], none⟩ 2 5 Trace.empty (by decide)
    (by decide) (by decide) (by decide)

/-- Claim C5, confirmed: the sleep after every failed attempt is a
function of the error's classification bucket alone — the run's sleep
trace is the pointwise image of the classifications of its failed
attempts, independent of attempt numbers — and the bucket durations are
16 seconds (or 2w when the wait unit w is positive) for not-ready, 8 (or
w) for other URL/transport errors, 4 (or w/2) otherwise. -/
theorem backoff_by_bucket (retryWait : Int) (cmd : HTTPProbeCmd)
    (addr : String) (oracle : Nat → CallResult) (req : Request)
    (fuel i : Nat) (t : Trace)
    (hb : buildRequest cmd addr = some req) :
    (∃ t', comboAttempts retryWait cmd addr oracle fuel i t = .ok t' ∧
      t'.sleeps = t.sleeps ++
        (failureKinds oracle fuel i).map (sleepAfterFailure retryWait)) ∧
    sleepAfterFailure retryWait .notReady =
      (if retryWait > 0 then retryWait * 2 else 16) ∧
    sleepAfterFailure retryWait .web =
      (if retryWait > 0 then retryWait else 8) ∧
    sleepAfterFailure retryWait .other =
      (if retryWait > 0 then retryWait / 2 else 4) :=
  ⟨comboAttempts_sleeps retryWait cmd addr oracle req hb fuel i t,
    rfl, rfl, rfl⟩

/-- Witness for claim C5: two not-ready failures then a success sleep
16 seconds each. -/
theorem backoff_by_bucket_witness :
    (∃ t', comboAttempts 0 cmdGet "http://h:8080/" comboThird 5 0 Trace.empty
        = .ok t' ∧
      t'.sleeps = Trace.empty.sleeps ++
        (failureKinds comboThird 5 0).map (sleepAfterFailure 0)) ∧
    sleepAfterFailure 0 .notReady = (if (0 : Int) > 0 then 0 * 2 else 16) ∧
    sleepAfterFailure 0 .web = (if (0 : Int) > 0 then 0 else 8) ∧
    sleepAfterFailure 0 .other = (if (0 : Int) > 0 then 0 / 2 else 4) :=
  backoff_by_bucket 0 cmdGet "http://h:8080/" comboThird
    ⟨"GET", "http://h:8080/", [], none⟩ 5 0 Trace.empty (by decide)

/-- Claim C6, confirmed: a command with empty protocol expands to exactly
the two series plaintext http then https, in that order; a set protocol
is used alone; and the scenario-3 run — one empty-protocol command, retry
count 2, every attempt failing — makes exactly 4 calls. -/
theorem protocol_expansion (cmd : HTTPProbeCmd) :
    (cmd.Protocol = "" → protocolsFor cmd = ["http", "https"]) ∧
    (cmd.Protocol ≠ "" → protocolsFor cmd = [cmd.Protocol]) ∧
    (startRun probeScenario3 oracleFailAll).trace.counters.callCount = 4 := by
  refine ⟨?_, ?_, by decide⟩
  · intro h
    simp [protocolsFor, h]
  · intro h
    simp [protocolsFor, h]

/-- Witness for claim C6 on a concrete empty-protocol command and a
concrete http-protocol command. -/
theorem protocol_expansion_witness :
    protocolsFor cmdGet = ["http", "https"] ∧
    protocolsFor cmdBadMethod = ["http"] :=
  ⟨(protocol_expansion cmdGet).1 rfl, by
    have h := (protocol_expansion cmdBadMethod).2.1 (by decide)
    simpa [cmdBadMethod] using h⟩

/-- Claim C7, confirmed: a header line splitting at its first colon
yields a whitespace-trimmed name/value pair added to the request; a line
with no colon (split of length 1) is skipped; the attempt's request is
still built and sent with the surviving headers, so a malformed header is
never fatal; scenario 4: the line "X-Test" contributes nothing. -/
theorem header_lines_parsed (hline : String) (rest : List String)
    (h1 h2 : String) (cmd : HTTPProbeCmd) (addr : String) (o : CallResult) :
    (splitHeaderLine hline = [h1, h2] →
      requestHeaders (hline :: rest) =
        (trimString h1, trimString h2) :: requestHeaders rest) ∧
    ((splitHeaderLine hline).length ≠ 2 →
      requestHeaders (hline :: rest) = requestHeaders rest) ∧
    (validMethod (effectiveMethod cmd.Method) = true →
      doAttempt cmd addr o =
        .sent { method := effectiveMethod cmd.Method, url := addr,
                headers := requestHeaders cmd.Headers,
                basicAuth := basicAuthOf cmd } o) ∧
    requestHeaders ["X-Test"] = [] := by
  refine ⟨?_, ?_, ?_, by decide⟩
  · intro h
    simp [requestHeaders, h]
  · intro h
    cases hs : splitHeaderLine hline with
    | nil => simp [requestHeaders, hs]
    | cons a tail =>
      cases tail with
      | nil => simp [requestHeaders, hs]
      | cons b tail2 =>
        cases tail2 with
        | nil =>
          rw [hs] at h
          simp at h
        | cons c tail3 => simp [requestHeaders, hs]
  · intro h
    simp [doAttempt, buildRequest_eq_some cmd addr h]

/-- Witness for claim C7: a well-formed line is trimmed and kept, the
colon-free line "X-Bad" is dropped, and a valid command's attempt is
sent. -/
theorem header_lines_parsed_witness :
    requestHeaders ["X-Test: 1", "X-Bad"] =
      (trimString "X-Test", trimString " 1") :: requestHeaders ["X-Bad"] ∧
    requestHeaders ["X-Bad", "A: b"] = requestHeaders ["A: b"] ∧
    doAttempt cmdGet "http://h:8080/" (CallResult.ok 200) =
      .sent { method := effectiveMethod cmdGet.Method, url := "http://h:8080/",
              headers := requestHeaders cmdGet.Headers,
              basicAuth := basicAuthOf cmdGet } (CallResult.ok 200) :=
  ⟨(header_lines_parsed "X-Test: 1" ["X-Bad"] "X-Test" " 1" cmdGet "x"
      (CallResult.ok 200)).1 (by decide),
   (header_lines_parsed "X-Bad" ["A: b"] "" "" cmdGet "x"
      (CallResult.ok 200)).2.1 (by decide),
   (header_lines_parsed "q" [] "" "" cmdGet "http://h:8080/"
      (CallResult.ok 200)).2.2.1 (by decide)⟩

/-- Claim C8, counterexample: with the bad-method probe the run dies on
the nil-request dereference before reaching `close(p.doneChan)`, so the
completion signal is never set — refuting the claim for every input
configuration. -/
theorem run_signals_done_cex :
    (startRun probeBadMethod oracleFailAll).doneSignaled = false := by decide

/-- Claim C8, amended: for every configuration whose request
construction succeeds for every (port, command, protocol) combination —
each command's method, after the empty-means-GET default, is a valid
HTTP token, and each combination's assembled target URL is parseable —
the background run always completes and sets the one-shot completion
signal after the last combination, even if every attempt of every
combination failed; no error-value path is fatal.  (Without the URL
condition the statement is false: `startRun_badProto_no_signal` shows a
valid-method configuration whose malformed protocol "1http" kills the
run unsignalled.) -/
theorem run_signals_done (p : CustomProbe)
    (oracle : String → Nat → String → Nat → CallResult)
    (hall : ∀ cmd ∈ p.Cmds, validMethod (effectiveMethod cmd.Method) = true)
    (hurl : ∀ port ∈ p.Ports, ∀ cmd ∈ p.Cmds, ∀ proto ∈ protocolsFor cmd,
      validProbeTarget proto p.hostIP port cmd.Resource = true) :
    (startRun p oracle).doneSignaled = true := by
  obtain ⟨t', h⟩ := portLoop_completes p.RetryCount p.RetryWait p.hostIP
    p.Cmds oracle hall p.Ports hurl Trace.empty
  simp [startRun, h]

/-- Witness for claim C8: the all-failing scenario-3 run still signals
completion. -/
theorem run_signals_done_witness :
    (startRun probeScenario3 oracleFailAll).doneSignaled = true :=
  run_signals_done probeScenario3 oracleFailAll (by decide) (by decide)

/-- Claim C9, confirmed: the construction error of `http.NewRequest` is
not checked before the request is used, so whenever construction fails
the attempt dereferences the nil request and faults rather than handling
it as a fatal-for-that-attempt condition; concretely, the method
"BAD METHOD" makes construction fail and the attempt fault. -/
theorem nil_request_fault_reachable (cmd : HTTPProbeCmd) (addr : String)
    (o : CallResult) :
    (buildRequest cmd addr = none → doAttempt cmd addr o = .fault) ∧
    newRequest cmdBadMethod.Method "http://h:8080/" = none ∧
    doAttempt cmdBadMethod "http://h:8080/" o = .fault := by
  refine ⟨?_, by decide, ?_⟩
  · intro h
    simp [doAttempt, h]
  · have h : buildRequest cmdBadMethod "http://h:8080/" = none := by decide
    simp [doAttempt, h]

/-- Witness for claim C9 at the concrete invalid method. -/
theorem nil_request_fault_reachable_witness :
    doAttempt cmdBadMethod "http://h:8080/" (CallResult.ok 200) = .fault :=
  (nil_request_fault_reachable cmdBadMethod "http://h:8080/"
    (CallResult.ok 200)).1 (by decide)

/-- Claim C10, confirmed: at every observation point of the run — the
counters after each attempt — and in the final summary, the total-call
counter equals the success counter plus the failure counter: consecutive
observations differ by exactly one call increment and exactly one of a
success or a failure increment, and no counter is ever decremented. -/
theorem counters_consistent (p : CustomProbe)
    (oracle : String → Nat → String → Nat → CallResult) :
    stepChain Counters.zero (startRun p oracle).trace.history ∧
    (∀ c ∈ (startRun p oracle).trace.history,
      c.callCount = c.okCount + c.errCount) ∧
    (startRun p oracle).trace.counters.callCount =
      (startRun p oracle).trace.counters.okCount +
        (startRun p oracle).trace.counters.errCount := by
  obtain ⟨h1, h2⟩ := startRun_traceInv p oracle
  refine ⟨h1, stepChain_members _ Counters.zero rfl h1, ?_⟩
  rcases lastCounters_default_or_mem (startRun p oracle).trace.history
      Counters.zero with h | h
  · rw [h2, h]
    rfl
  · rw [h2]
    exact stepChain_members _ Counters.zero rfl h1 _ h

/-- Witness for claim C10 on the concrete scenario-3 run. -/
theorem counters_consistent_witness :
    (startRun probeScenario3 oracleFailAll).trace.counters.callCount =
      (startRun probeScenario3 oracleFailAll).trace.counters.okCount +
        (startRun probeScenario3 oracleFailAll).trace.counters.errCount :=
  (counters_consistent probeScenario3 oracleFailAll).2.2

end SlimProbe
